import Mathlib

/-!
Verification of the dns-packet decoder: a shallow embedding of the Rust
sources (`src/lib.rs`, `src/main.rs`) into Lean, followed by theorems about
the embedded definitions.  Byte buffers are modelled as `List Nat` (each
entry a byte value), machine integers as `Nat` with explicit `% 65536`
where the source performs 16-bit arithmetic, and fallible operations as
`Except DnsPacketParseError`.  Loops whose termination is not structural
are given an explicit fuel parameter together with lemmas showing the fuel
chosen by the callers is always sufficient on the reachable states.
-/

namespace Dns

/-- Mirrors `enum QueryResponse` in `src/lib.rs`. -/
inductive QueryResponse where
  | Query
  | Response
deriving DecidableEq, Repr

/-- Mirrors `enum Opcode` in `src/lib.rs`. -/
inductive Opcode where
  | Query
  | IQuery
  | Status
  | Notify
  | Update
  | DNSStatefulOperations
  | Unassigned
deriving DecidableEq, Repr

/-- Mirrors `enum RCode` in `src/lib.rs`. -/
inductive RCode where
  | FormErr
  | ServFail
  | NXDomain
  | NotImp
  | Refused
  | YXDomain
  | YXRRSet
  | NXRRSet
  | NotAuth
  | NotZone
  | DSOTYPENI
  | Unassigned
deriving DecidableEq, Repr

/-- Mirrors `enum RecordType` in `src/lib.rs`. -/
inductive RecordType where
  | AddressRecord
  | Other
deriving DecidableEq, Repr

/-- Mirrors `enum Class` in `src/lib.rs`. -/
inductive Class where
  | Internet
  | Other
deriving DecidableEq, Repr

/-- Mirrors `enum DnsPacketParseError` in `src/lib.rs`. -/
inductive DnsPacketParseError where
  | OutOfBounds (index : Nat) (length : Nat)
  | JumpLimitExceeded
deriving DecidableEq, Repr

instance {ε α : Type} [DecidableEq ε] [DecidableEq α] : DecidableEq (Except ε α) := fun a b =>
  match a, b with
  | .ok x, .ok y =>
    if h : x = y then isTrue (by rw [h]) else isFalse (fun hh => h (Except.ok.inj hh))
  | .ok _, .error _ => isFalse (fun h => Except.noConfusion h)
  | .error _, .ok _ => isFalse (fun h => Except.noConfusion h)
  | .error x, .error y =>
    if h : x = y then isTrue (by rw [h]) else isFalse (fun hh => h (Except.error.inj hh))

/-- Mirrors `struct Question` in `src/lib.rs` (`r#type` / `class`). -/
structure Question where
  name : String
  type : RecordType
  «class» : Class
deriving DecidableEq, Repr

/-- Mirrors `struct RecordPreamble` in `src/lib.rs`. -/
structure RecordPreamble where
  question : Question
  time_to_live : Nat
deriving DecidableEq, Repr

/-- Mirrors `struct DnsPacket` in `src/lib.rs`. -/
structure DnsPacket where
  packet_identifier : Nat
  query_response : QueryResponse
  operation_code : Opcode
  authoritative_answer : Bool
  truncated_message : Bool
  recursion_desired : Bool
  recursion_available : Bool
  response_code : Except RCode Unit
  question_count : Nat
  answer_count : Nat
  authority_count : Nat
  additional_count : Nat
  questions : List Question
  answers : List RecordPreamble
deriving DecidableEq, Repr

/-- Mirrors `fn get8` in `src/lib.rs`: fetch the byte at `index` or fail
with `OutOfBounds {index, length}`. -/
def get8 (index : Nat) (value : List Nat) : Except DnsPacketParseError Nat :=
  match value.get? index with
  | some b => .ok b
  | none => .error (.OutOfBounds index value.length)

/-- Mirrors `fn get16` in `src/lib.rs`.  Note the source reads the byte at
`index + 1` before the byte at `index`, so that is the index reported when
both are missing. -/
def get16 (index : Nat) (value : List Nat) : Except DnsPacketParseError Nat := do
  let b ← get8 (index + 1) value
  let a ← get8 index value
  .ok ((a <<< 8) + b)

/-- Mirrors `fn get32` in `src/lib.rs` (reads the byte at `index + 3`
first). -/
def get32 (index : Nat) (value : List Nat) : Except DnsPacketParseError Nat := do
  let d ← get8 (index + 3) value
  let c ← get8 (index + 2) value
  let b ← get8 (index + 1) value
  let a ← get8 index value
  .ok ((a <<< 24) + (b <<< 16) + (c <<< 8) + d)

/-- The mutable state of `struct LabelSequenceIterator` in `src/lib.rs`
(the borrowed packet is passed separately): the local cursor `position`,
the caller's shared cursor `global_position` (both `u16`) and the `u8`
`jump_counter`. -/
structure LabelIterState where
  position : Nat
  global_position : Nat
  jump_counter : Nat
deriving DecidableEq, Repr

/-- The `while` loop at the top of `read_section` in `src/lib.rs`: chase
compression pointers (bytes with both high bits set), bumping the global
cursor by 2 on the first jump only, and failing with `JumpLimitExceeded`
once the jump counter exceeds 5.  The `fuel` argument only bounds the
recursion; `chase_fuel` below shows any fuel above `6 - jump_counter`
gives the same result, so the fuel of 7 used by `readSection` never
changes the semantics. -/
def chase (packet : List Nat) : Nat → LabelIterState → Except DnsPacketParseError LabelIterState
  | 0, _ => .error .JumpLimitExceeded
  | fuel + 1, st =>
    match get8 st.position packet with
    | .error e => .error e
    | .ok b =>
      if b &&& 192 = 192 then
        let g := if st.jump_counter = 0 then (st.global_position + 2) % 65536
                 else st.global_position
        match get16 st.position packet with
        | .error e => .error e
        | .ok w =>
          if st.jump_counter + 1 > 5 then .error .JumpLimitExceeded
          else chase packet fuel ⟨w &&& 16383, g, st.jump_counter + 1⟩
      else .ok st

/-- Rust's `slice.get(a..b)`: `some` of the sub-list iff `a ≤ b ≤ len`. -/
def sliceGet (l : List Nat) (a b : Nat) : Option (List Nat) :=
  if a ≤ b ∧ b ≤ l.length then some ((l.drop a).take (b - a)) else none

/-- Mirrors `LabelSequenceIterator::read_section` in `src/lib.rs`: chase
pointers, then read one label (returning `none` for the terminating zero
length byte).  When the jump counter is still 0 the global cursor advances
by `1 + length` (16-bit arithmetic). -/
def readSection (packet : List Nat) (st : LabelIterState) :
    Except DnsPacketParseError (Option (List Nat) × LabelIterState) :=
  match chase packet 7 st with
  | .error e => .error e
  | .ok st1 =>
    match get8 st1.position packet with
    | .error e => .error e
    | .ok b =>
      let length := b &&& 63
      let g := if st1.jump_counter = 0 then (st1.global_position + 1 + length) % 65536
               else st1.global_position
      if length = 0 then
        .ok (none, ⟨st1.position, g, st1.jump_counter⟩)
      else
        let old_position := st1.position + 1
        let new_position := old_position + length
        match sliceGet packet old_position new_position with
        | none => .error (.OutOfBounds (new_position - 1) packet.length)
        | some content =>
          .ok (some content, ⟨(st1.position + length + 1) % 65536, g, st1.jump_counter⟩)

/-- Driving the iterator to exhaustion (the `for label in iterator` loop of
`Question::try_from`): collect labels until the terminator (`.ok`) or an
error.  `none` means the fuel ran out before the iterator finished. -/
def runIterator (packet : List Nat) :
    Nat → LabelIterState → Option (Except DnsPacketParseError (List (List Nat) × LabelIterState))
  | 0, _ => none
  | fuel + 1, st =>
    match readSection packet st with
    | .error e => some (.error e)
    | .ok (none, st1) => some (.ok ([], st1))
    | .ok (some lab, st1) =>
      match runIterator packet fuel st1 with
      | none => none
      | some (.error e) => some (.error e)
      | some (.ok (labs, stf)) => some (.ok (lab :: labs, stf))

/-- Fuel bound for `runIterator`: strictly decreases at every yielded label
as long as the packet fits the 16-bit address space (see
`readSection_measure_lt`). -/
def iterMeasure (packet : List Nat) (st : LabelIterState) : Nat :=
  (6 - st.jump_counter) * (packet.length + 2) + (packet.length + 1 - st.position)

/-- The full run of a `LabelSequenceIterator`, with the fuel shown
sufficient (for packets of length at most 65535) by `runIterator_isSome`. -/
def runName (packet : List Nat) (st : LabelIterState) :
    Option (Except DnsPacketParseError (List (List Nat) × LabelIterState)) :=
  runIterator packet (iterMeasure packet st + 1) st

/-- The name-building loop of `Question::try_from`: join the yielded labels
with `'.'`, each label byte converted by `char::from` (identity on the byte
value). -/
def buildName (labels : List (List Nat)) : String :=
  labels.foldl (fun name label =>
    let name := if name.isEmpty then name else name.push '.'
    label.foldl (fun n b => n.push (Char.ofNat b)) name) ""

/-- Mirrors `impl TryFrom<(&[u8], &mut u16)> for Question`: run the label
iterator from the shared cursor, then read class at `cursor + 2` and type
at `cursor`, and advance the shared cursor by 4.  `none` is fuel
exhaustion of the underlying iterator (impossible for wire-sized
packets). -/
def questionTryFrom (value : List Nat) (position : Nat) :
    Option (Except DnsPacketParseError (Question × Nat)) :=
  match runName value ⟨position, position, 0⟩ with
  | none => none
  | some (.error e) => some (.error e)
  | some (.ok (labels, st)) =>
    match get16 (st.global_position + 2) value with
    | .error e => some (.error e)
    | .ok c =>
      match get16 st.global_position value with
      | .error e => some (.error e)
      | .ok t =>
        some (.ok
          ({ name := buildName labels,
             type := if t = 1 then RecordType.AddressRecord else RecordType.Other,
             «class» := if c = 1 then Class.Internet else Class.Other },
           (st.global_position + 4) % 65536))

/-- Mirrors `impl TryFrom<(&[u8], &mut u16)> for RecordPreamble`: a
question followed by a 32-bit time-to-live, advancing the cursor by 4. -/
def recordPreambleTryFrom (value : List Nat) (position : Nat) :
    Option (Except DnsPacketParseError (RecordPreamble × Nat)) :=
  match questionTryFrom value position with
  | none => none
  | some (.error e) => some (.error e)
  | some (.ok (q, pos)) =>
    match get32 pos value with
    | .error e => some (.error e)
    | .ok ttl => some (.ok ({ question := q, time_to_live := ttl }, (pos + 4) % 65536))

/-- The numeric-to-enum opcode mapping of `DnsPacket::try_from`
(`match (get8(2, value)? >> 3) & 0b1111`). -/
def opcodeOf : Nat → Opcode
  | 0 => .Query
  | 1 => .IQuery
  | 2 => .Status
  | 4 => .Notify
  | 5 => .Update
  | 6 => .DNSStatefulOperations
  | _ => .Unassigned

/-- The numeric-to-enum response-code mapping of `DnsPacket::try_from`
(`match get8(3, value)? & 0b1111`). -/
def responseCodeOf : Nat → Except RCode Unit
  | 0 => .ok ()
  | 1 => .error .FormErr
  | 2 => .error .ServFail
  | 3 => .error .NXDomain
  | 4 => .error .NotImp
  | 5 => .error .Refused
  | 6 => .error .YXDomain
  | 7 => .error .YXRRSet
  | 8 => .error .NXRRSet
  | 9 => .error .NotAuth
  | 10 => .error .NotZone
  | 11 => .error .DSOTYPENI
  | _ => .error .Unassigned

/-- The local variables computed by the header part of
`DnsPacket::try_from` (byte offsets 0 through 11), in source order. -/
structure HeaderFields where
  packet_identifier : Nat
  query_response : QueryResponse
  operation_code : Opcode
  authoritative_answer : Bool
  truncated_message : Bool
  recursion_desired : Bool
  recursion_available : Bool
  response_code : Except RCode Unit
  question_count : Nat
  answer_count : Nat
  authority_count : Nat
  additional_count : Nat
deriving DecidableEq, Repr

/-- The header part of `DnsPacket::try_from` in `src/lib.rs`, with each
`get8`/`get16` call in source order. -/
def readHeader (value : List Nat) : Except DnsPacketParseError HeaderFields := do
  let packet_identifier ← get16 0 value
  let b2a ← get8 2 value
  let query_response := if b2a >>> 7 = 1 then QueryResponse.Response else QueryResponse.Query
  let b2b ← get8 2 value
  let operation_code := opcodeOf ((b2b >>> 3) &&& 15)
  let b2c ← get8 2 value
  let authoritative_answer := (b2c >>> 2) &&& 1 = 1
  let b2d ← get8 2 value
  let truncated_message := (b2d >>> 1) &&& 1 = 1
  let b2e ← get8 2 value
  let recursion_desired := b2e &&& 1 = 1
  let b3a ← get8 3 value
  let recursion_available := b3a >>> 7 = 1
  let b3b ← get8 3 value
  let response_code := responseCodeOf (b3b &&& 15)
  let question_count ← get16 4 value
  let answer_count ← get16 6 value
  let authority_count ← get16 8 value
  let additional_count ← get16 10 value
  .ok { packet_identifier, query_response, operation_code, authoritative_answer,
        truncated_message, recursion_desired, recursion_available, response_code,
        question_count, answer_count, authority_count, additional_count }

/-- The `for _ in 0..question_count` loop of `DnsPacket::try_from`. -/
def decodeQuestions (value : List Nat) :
    Nat → Nat → Option (Except DnsPacketParseError (List Question × Nat))
  | 0, pos => some (.ok ([], pos))
  | n + 1, pos =>
    match questionTryFrom value pos with
    | none => none
    | some (.error e) => some (.error e)
    | some (.ok (q, pos1)) =>
      match decodeQuestions value n pos1 with
      | none => none
      | some (.error e) => some (.error e)
      | some (.ok (qs, pos2)) => some (.ok (q :: qs, pos2))

/-- The `(0..answer_count).map(...).collect::<Result<Vec<_>, _>>()` loop of
`DnsPacket::try_from` (fail-fast sequential decoding). -/
def decodeAnswers (value : List Nat) :
    Nat → Nat → Option (Except DnsPacketParseError (List RecordPreamble × Nat))
  | 0, pos => some (.ok ([], pos))
  | n + 1, pos =>
    match recordPreambleTryFrom value pos with
    | none => none
    | some (.error e) => some (.error e)
    | some (.ok (a, pos1)) =>
      match decodeAnswers value n pos1 with
      | none => none
      | some (.error e) => some (.error e)
      | some (.ok (as2, pos2)) => some (.ok (a :: as2, pos2))

/-- Mirrors `impl TryFrom<&[u8]> for DnsPacket`: header, then
`question_count` questions and `answer_count` record preambles from the
shared cursor starting at 12. -/
def tryFromDnsPacket (value : List Nat) : Option (Except DnsPacketParseError DnsPacket) :=
  match readHeader value with
  | .error e => some (.error e)
  | .ok h =>
    match decodeQuestions value h.question_count 12 with
    | none => none
    | some (.error e) => some (.error e)
    | some (.ok (questions, pos1)) =>
      match decodeAnswers value h.answer_count pos1 with
      | none => none
      | some (.error e) => some (.error e)
      | some (.ok (answers, _)) =>
        some (.ok
          { packet_identifier := h.packet_identifier,
            query_response := h.query_response,
            operation_code := h.operation_code,
            authoritative_answer := h.authoritative_answer,
            truncated_message := h.truncated_message,
            recursion_desired := h.recursion_desired,
            recursion_available := h.recursion_available,
            response_code := h.response_code,
            question_count := h.question_count,
            answer_count := h.answer_count,
            authority_count := h.authority_count,
            additional_count := h.additional_count,
            questions := questions,
            answers := answers })

/-! ### The outbound query builder of `src/main.rs`

The host name is modelled by its byte sequence (for an ASCII host name each
byte is the code of the corresponding character).  Rust's
`host_name.split('.')` splits the string at each `'.'` character; since the
byte 46 never occurs inside a multi-byte UTF-8 sequence this is the same as
splitting the byte sequence at each 46. -/

/-- The two label validation failures of `enum MainError` in
`src/main.rs`, each citing the offending label. -/
inductive MainError where
  | LabelSize (label : List Nat)
  | LabelInvalidCharacter (label : List Nat)
deriving DecidableEq, Repr

/-- Rust `str::split('.')`: maximal (possibly empty) runs between dots. -/
def splitOnDot : List Nat → List (List Nat)
  | [] => [[]]
  | b :: rest =>
    match splitOnDot rest with
    | [] => [[]]
    | first :: others =>
      if b = 46 then [] :: first :: others else (b :: first) :: others

/-- The byte test of the `match byte` in `src/main.rs`:
`b'0'..=b'9' | b'a'..=b'z' | b'A'..=b'Z'`. -/
def isAlphanumericByte (b : Nat) : Bool :=
  (48 ≤ b && b ≤ 57) || (97 ≤ b && b ≤ 122) || (65 ≤ b && b ≤ 90)

/-- The inner `for byte in label.bytes()` loop of `src/main.rs`: push each
alphanumeric byte, fail with `LabelInvalidCharacter` (citing the whole
label) at the first other byte. -/
def checkLabelBytes (label : List Nat) : List Nat → Except MainError (List Nat)
  | [] => .ok []
  | b :: rest =>
    if isAlphanumericByte b then
      match checkLabelBytes label rest with
      | .error e => .error e
      | .ok bs => .ok (b :: bs)
    else .error (.LabelInvalidCharacter label)

/-- One iteration of the label loop of `src/main.rs`: the length must be
1 through 63 (`u8::try_from` plus the range check), then the length byte
and the validated bytes are emitted. -/
def encodeLabel (label : List Nat) : Except MainError (List Nat) :=
  if label.length = 0 ∨ 63 < label.length then .error (.LabelSize label)
  else
    match checkLabelBytes label label with
    | .error e => .error e
    | .ok bs => .ok (label.length :: bs)

/-- The `for label in opt.host_name.split('.')` loop of `src/main.rs`. -/
def encodeLabels : List (List Nat) → Except MainError (List Nat)
  | [] => .ok []
  | l :: rest =>
    match encodeLabel l with
    | .error e => .error e
    | .ok bs =>
      match encodeLabels rest with
      | .error e => .error e
      | .ok rs => .ok (bs ++ rs)

/-- The question label sequence built by `src/main.rs` for a host name:
the encoded labels followed by the terminating zero length byte. -/
def encodeQuestionName (host : List Nat) : Except MainError (List Nat) :=
  match encodeLabels (splitOnDot host) with
  | .error e => .error e
  | .ok bs => .ok (bs ++ [0])

/-- The bytes of an ASCII string, for writing concrete host names. -/
def asciiBytes (s : String) : List Nat := s.data.map Char.toNat

/-- A label that passes both validations of `src/main.rs`. -/
def labelOk (label : List Nat) : Prop :=
  label.length ≠ 0 ∧ label.length ≤ 63 ∧ ∀ b ∈ label, isAlphanumericByte b = true

instance (label : List Nat) : Decidable (labelOk label) := by
  unfold labelOk
  infer_instance

/-! ### Concrete wire inputs used by the testable properties -/

/-- A 12-byte all-zero header followed by the uncompressed encoding of
`"google.com"` at offset 12 (`[6,g,o,o,g,l,e,3,c,o,m,0]`) and type 1,
class 1. -/
def googleQuery : List Nat :=
  [0,0,0,0,0,0,0,0,0,0,0,0,
   6,103,111,111,103,108,101,3,99,111,109,0,
   0,1,0,1]

/-- `googleQuery` extended so that offset 28 holds a compression pointer
(0xC0, 12) to the name at offset 12. -/
def googlePointer : List Nat := googleQuery ++ [192,12]

/-- A label `"a"` with terminator at offset 0 and a chain of pointers:
offset 4 points to 0, and offsets 6, 8, 10, 12 each point two bytes back,
so a name starting at offset 12 is reached through exactly 5 jumps. -/
def fiveJumps : List Nat :=
  [1,97,0, 0, 192,0, 192,4, 192,6, 192,8, 192,10]

/-- `fiveJumps` extended with a sixth pointer at offset 14, so a name
starting at offset 14 needs 6 jumps. -/
def sixJumps : List Nat := fiveJumps ++ [192,12]

/-- A self-referencing compression pointer at offset 0 (a true cycle). -/
def pointerCycle : List Nat := [192,0]

/-- A 12-byte header announcing one question (QDCOUNT = 1) with no bytes
after it, so decoding the question fails at offset 12. -/
def truncatedQuestion : List Nat := [0,0,0,0,0,1,0,0,0,0,0,0]

/-! ### Helper lemmas -/

theorem ok_bind {ε α β : Type} (a : α) (f : α → Except ε β) :
    (Except.ok a >>= f) = f a := rfl

theorem error_bind {ε α β : Type} (e : ε) (f : α → Except ε β) :
    (Except.error e >>= f : Except ε β) = Except.error e := rfl

theorem bind_eq_ok {ε α β : Type} {x : Except ε α} {f : α → Except ε β} {b : β}
    (h : x >>= f = .ok b) : ∃ a, x = .ok a ∧ f a = .ok b := by
  cases x with
  | ok a => exact ⟨a, rfl, h⟩
  | error e => exact absurd h (by simp [error_bind])

theorem get8_ok_lt {i : Nat} {l : List Nat} {b : Nat} (h : get8 i l = .ok b) :
    i < l.length := by
  unfold get8 at h
  cases hg : l.get? i with
  | none => rw [hg] at h; exact absurd h (by simp)
  | some a => exact List.get?_eq_some.mp hg |>.1

/-- The fuel given to `chase` is irrelevant as long as it exceeds
`6 - jump_counter`; in particular the fuel of 7 used by `readSection`
behaves as the unbounded source loop. -/
theorem chase_fuel (packet : List Nat) :
    ∀ (f g : Nat) (st : LabelIterState),
      6 - st.jump_counter < f → 6 - st.jump_counter < g →
      chase packet f st = chase packet g st := by
  intro f
  induction f with
  | zero => intro g st hf _; exact absurd hf (Nat.not_lt_zero _)
  | succ f ih =>
    intro g st hf hg
    cases g with
    | zero => exact absurd hg (Nat.not_lt_zero _)
    | succ g =>
      simp only [chase]
      cases hb : get8 st.position packet with
      | error e => rfl
      | ok b =>
        by_cases hptr : b &&& 192 = 192
        · simp only [hptr, if_true]
          cases hw : get16 st.position packet with
          | error e => rfl
          | ok w =>
            by_cases hj : st.jump_counter + 1 > 5
            · simp only [hj, if_true]
            · simp only [hj, if_false]
              exact ih g ⟨w &&& 16383, _, st.jump_counter + 1⟩ (by simp; omega) (by simp; omega)
        · simp only [hptr, if_false]

/-- A non-pointer byte at the local cursor stops the pointer-chasing loop
immediately, leaving the whole iterator state unchanged. -/
theorem chase_nonpointer {packet : List Nat} {st : LabelIterState} {b : Nat}
    (hb : get8 st.position packet = .ok b) (hptr : b &&& 192 ≠ 192) :
    ∀ f, 0 < f → chase packet f st = .ok st := by
  intro f hf
  cases f with
  | zero => exact absurd hf (by omega)
  | succ f => simp only [chase, hb, hptr, if_false]

/-- A successful pointer chase either did nothing or strictly increased the
jump counter while keeping it at most 5. -/
theorem chase_ok_cases (packet : List Nat) :
    ∀ (f : Nat) (st st' : LabelIterState), chase packet f st = .ok st' →
      st' = st ∨ (st.jump_counter < st'.jump_counter ∧ st'.jump_counter ≤ 5) := by
  intro f
  induction f with
  | zero => intro st st' h; exact absurd h (by simp [chase])
  | succ f ih =>
    intro st st' h
    simp only [chase] at h
    cases hb : get8 st.position packet with
    | error e => rw [hb] at h; exact absurd h (by simp)
    | ok b =>
      rw [hb] at h
      by_cases hptr : b &&& 192 = 192
      · simp only [hptr, if_true] at h
        cases hw : get16 st.position packet with
        | error e => rw [hw] at h; exact absurd h (by simp)
        | ok w =>
          rw [hw] at h
          by_cases hj : st.jump_counter + 1 > 5
          · simp only [hj, if_true] at h; exact absurd h (by simp)
          · simp only [hj, if_false] at h
            rcases ih _ st' h with h1 | h1
            · right
              rw [h1]
              exact ⟨Nat.lt_succ_self _, show st.jump_counter + 1 ≤ 5 by omega⟩
            · right
              have ha : st.jump_counter + 1 < st'.jump_counter := h1.1
              exact ⟨by omega, h1.2⟩
      · simp only [hptr, if_false] at h
        left
        exact (Except.ok.inj h).symm

/-- Once the jump counter is positive (a pointer has already been
followed), chasing further pointers never moves the global cursor. -/
theorem chase_global_of_jumped (packet : List Nat) :
    ∀ (f : Nat) (st st' : LabelIterState), 1 ≤ st.jump_counter →
      chase packet f st = .ok st' →
      st'.global_position = st.global_position := by
  intro f
  induction f with
  | zero => intro st st' _ h; exact absurd h (by simp [chase])
  | succ f ih =>
    intro st st' hjc h
    simp only [chase] at h
    cases hb : get8 st.position packet with
    | error e => rw [hb] at h; exact absurd h (by simp)
    | ok b =>
      rw [hb] at h
      by_cases hptr : b &&& 192 = 192
      · simp only [hptr, if_true] at h
        cases hw : get16 st.position packet with
        | error e => rw [hw] at h; exact absurd h (by simp)
        | ok w =>
          rw [hw] at h
          by_cases hj : st.jump_counter + 1 > 5
          · simp only [hj, if_true] at h; exact absurd h (by simp)
          · simp only [hj, if_false] at h
            have hz : ¬ st.jump_counter = 0 := by omega
            simp only [hz, if_false] at h
            exact ih ⟨w &&& 16383, st.global_position, st.jump_counter + 1⟩ st'
              (show 1 ≤ st.jump_counter + 1 by omega) h
      · simp only [hptr, if_false] at h
        rw [← Except.ok.inj h]

/-- One iteration of the pointer-chasing loop, when the hop limit is not
yet hit: follow the pointer, bump the global cursor iff this is the first
jump, and increment the jump counter. -/
theorem chase_pointer_step {packet : List Nat} {st : LabelIterState} {b w : Nat}
    (hb : get8 st.position packet = .ok b) (hptr : b &&& 192 = 192)
    (hw : get16 st.position packet = .ok w) (f : Nat)
    (hguard : st.jump_counter + 1 ≤ 5) :
    chase packet (f + 1) st =
      chase packet f ⟨w &&& 16383,
        (if st.jump_counter = 0 then (st.global_position + 2) % 65536
         else st.global_position),
        st.jump_counter + 1⟩ := by
  have hj : ¬ (st.jump_counter + 1 > 5) := by omega
  simp only [chase, hb, hptr, if_true, hw, hj, if_false]

/-! ### The claims -/

/-- C1: when a compression pointer is met, the global cursor advances by
exactly 2 iff it is the first pointer of the name (jump counter 0); later
pointers in a chain never move the global cursor.  Concretely, a name at
offset 28 that is a lone pointer to `"google.com"` at offset 12 decodes to
the labels `google`, `com` while the global cursor goes from 28 to 30. -/
theorem c1_first_pointer_only_advances_global :
    (∀ (packet : List Nat) (st : LabelIterState) (b w : Nat),
      st.jump_counter = 0 →
      get8 st.position packet = .ok b → b &&& 192 = 192 →
      get16 st.position packet = .ok w →
      chase packet 7 st =
        chase packet 7 ⟨w &&& 16383, (st.global_position + 2) % 65536, 1⟩) ∧
    (∀ (packet : List Nat) (st st' : LabelIterState),
      1 ≤ st.jump_counter → chase packet 7 st = .ok st' →
      st'.global_position = st.global_position) ∧
    runName googlePointer ⟨28, 28, 0⟩ =
      some (.ok ([[103,111,111,103,108,101], [99,111,109]], ⟨23, 30, 1⟩)) := by
  refine ⟨?_, ?_, rfl⟩
  · intro packet st b w hjc hb hptr hw
    rw [show (7 : Nat) = 6 + 1 from rfl, chase_pointer_step hb hptr hw 6 (by omega)]
    rw [hjc]
    norm_num
    exact chase_fuel packet 6 7 ⟨w &&& 16383, (st.global_position + 2) % 65536, 1⟩
      (show 6 - 1 < 6 by omega) (show 6 - 1 < 7 by omega)
  · intro packet st st' h1 h2
    exact chase_global_of_jumped packet 7 st st' h1 h2

/-- C1 witness: the first pointer of the concrete compressed name, at
offset 28 with jump counter 0, advances the global cursor from 28 to
`(28 + 2) % 65536`. -/
theorem c1_witness :
    chase googlePointer 7 ⟨28, 28, 0⟩ =
      chase googlePointer 7 ⟨49164 &&& 16383, (28 + 2) % 65536, 1⟩ :=
  c1_first_pointer_only_advances_global.1 googlePointer ⟨28, 28, 0⟩ 192 49164
    rfl rfl rfl rfl

/-- C2: with no pointer involved (jump counter still 0), each
`read_section` call advances the global cursor by exactly `1 + length`
(so 1 for the terminating zero length byte, which yields no label).
Concretely, the uncompressed `"google.com"` name at offset 12 decodes to
the labels `google`, `com` while the global cursor goes from 12 to 24. -/
theorem c2_uncompressed_name_advance :
    (∀ (packet : List Nat) (st : LabelIterState) (b : Nat)
       (res : Option (List Nat)) (st' : LabelIterState),
      st.jump_counter = 0 →
      get8 st.position packet = .ok b → b &&& 192 ≠ 192 →
      readSection packet st = .ok (res, st') →
      st'.global_position = (st.global_position + 1 + (b &&& 63)) % 65536 ∧
        (res = none ↔ b &&& 63 = 0)) ∧
    runName googleQuery ⟨12, 12, 0⟩ =
      some (.ok ([[103,111,111,103,108,101], [99,111,109]], ⟨23, 24, 0⟩)) := by
  refine ⟨?_, rfl⟩
  intro packet st b res st' hjc hb hptr hrs
  have hc : chase packet 7 st = .ok st := chase_nonpointer hb hptr 7 (by omega)
  unfold readSection at hrs
  rw [hc] at hrs
  dsimp only at hrs
  rw [hb] at hrs
  dsimp only at hrs
  by_cases hlen : b &&& 63 = 0
  · simp only [hjc, hlen, if_true, reduceIte] at hrs
    simp only [Except.ok.injEq, Prod.mk.injEq] at hrs
    obtain ⟨h1, h2⟩ := hrs
    rw [← h2, ← h1]
    simp [hlen]
  · simp only [hjc, hlen, if_true, if_false, reduceIte] at hrs
    cases hs : sliceGet packet (st.position + 1) (st.position + 1 + (b &&& 63)) with
    | none => rw [hs] at hrs; exact absurd hrs (by simp)
    | some content =>
      rw [hs] at hrs
      simp only [Except.ok.injEq, Prod.mk.injEq] at hrs
      obtain ⟨h1, h2⟩ := hrs
      rw [← h2, ← h1]
      simp [hlen]

/-- C2 witness: reading the first label of the concrete uncompressed name
advances the global cursor from 12 by `1 + 6` and yields a label. -/
theorem c2_witness :
    LabelIterState.global_position ⟨19, 19, 0⟩ = (12 + 1 + (6 &&& 63)) % 65536 ∧
      (some [103,111,111,103,108,101] = (none : Option (List Nat)) ↔ 6 &&& 63 = 0) :=
  c2_uncompressed_name_advance.1 googleQuery ⟨12, 12, 0⟩ 6
    (some [103,111,111,103,108,101]) ⟨19, 19, 0⟩ rfl rfl (by decide) rfl

/-- C3: the decoder fails with `JumpLimitExceeded` exactly when a pointer
chain exceeds 5 hops: any pointer met with the jump counter already at 5
aborts the chase, a concrete chain of exactly 5 hops decodes successfully,
and concrete chains of 6 hops — acyclic or a true self-loop — fail with
`JumpLimitExceeded`. -/
theorem c3_jump_limit :
    (∀ (packet : List Nat) (st : LabelIterState) (b w : Nat),
      5 ≤ st.jump_counter →
      get8 st.position packet = .ok b → b &&& 192 = 192 →
      get16 st.position packet = .ok w →
      chase packet 7 st = .error .JumpLimitExceeded) ∧
    runName fiveJumps ⟨12, 12, 0⟩ = some (.ok ([[97]], ⟨2, 14, 5⟩)) ∧
    runName sixJumps ⟨14, 14, 0⟩ = some (.error .JumpLimitExceeded) ∧
    runName pointerCycle ⟨0, 0, 0⟩ = some (.error .JumpLimitExceeded) := by
  refine ⟨?_, rfl, rfl, rfl⟩
  intro packet st b w hjc hb hptr hw
  have hj : st.jump_counter + 1 > 5 := by omega
  rw [show (7 : Nat) = 6 + 1 from rfl]
  simp only [chase, hb, hptr, if_true, hw, hj, if_true]

/-- C3 witness: in the concrete 6-hop chain, the sixth pointer (at offset
4, jump counter 5) aborts with `JumpLimitExceeded`. -/
theorem c3_witness :
    chase sixJumps 7 ⟨4, 16, 5⟩ = .error .JumpLimitExceeded :=
  c3_jump_limit.1 sixJumps ⟨4, 16, 5⟩ 192 49152 (show (5:Nat) ≤ 5 from Nat.le_refl 5)
    rfl rfl rfl

/-- Each successfully yielded label strictly decreases `iterMeasure`
provided the packet fits the 16-bit address space: the local cursor grows
without wrapping while the jump counter is stable, and the jump counter
(bounded by 5) grows whenever pointers were chased. -/
theorem readSection_measure_lt {packet : List Nat} {st st' : LabelIterState}
    {lab : List Nat} (hlen : packet.length ≤ 65535) (hjc : st.jump_counter ≤ 5)
    (h : readSection packet st = .ok (some lab, st')) :
    iterMeasure packet st' < iterMeasure packet st ∧ st'.jump_counter ≤ 5 := by
  unfold readSection at h
  cases hc : chase packet 7 st with
  | error e => rw [hc] at h; exact absurd h (by simp)
  | ok st1 =>
    rw [hc] at h
    dsimp only at h
    cases hb : get8 st1.position packet with
    | error e => rw [hb] at h; exact absurd h (by simp)
    | ok b =>
      rw [hb] at h
      dsimp only at h
      by_cases hz : b &&& 63 = 0
      · rw [if_pos hz] at h; exact absurd h (by simp)
      · rw [if_neg hz] at h
        cases hs : sliceGet packet (st1.position + 1) (st1.position + 1 + (b &&& 63)) with
        | none => rw [hs] at h; exact absurd h (by simp)
        | some content =>
          rw [hs] at h
          simp only [Except.ok.injEq, Prod.mk.injEq] at h
          obtain ⟨-, h2⟩ := h
          have hbound : st1.position + 1 + (b &&& 63) ≤ packet.length := by
            unfold sliceGet at hs
            by_cases hcnd : st1.position + 1 ≤ st1.position + 1 + (b &&& 63) ∧
                st1.position + 1 + (b &&& 63) ≤ packet.length
            · exact hcnd.2
            · rw [if_neg hcnd] at hs; exact absurd hs (by simp)
          have hpos1 : st1.position < packet.length := get8_ok_lt hb
          have hmod : (st1.position + (b &&& 63) + 1) % 65536 =
              st1.position + (b &&& 63) + 1 := Nat.mod_eq_of_lt (by omega)
          rcases chase_ok_cases packet 7 st st1 hc with hcc | hcc
          · subst hcc
            rw [← h2]
            refine ⟨?_, hjc⟩
            unfold iterMeasure
            dsimp only
            rw [hmod]
            exact Nat.add_lt_add_left (by omega) _
          · obtain ⟨hlt, hle5⟩ := hcc
            rw [← h2]
            refine ⟨?_, hle5⟩
            unfold iterMeasure
            dsimp only
            rw [hmod]
            have h1 : (6 - st1.jump_counter) * (packet.length + 2) ≤
                (5 - st.jump_counter) * (packet.length + 2) :=
              Nat.mul_le_mul_right _ (by omega)
            have h2' : (5 - st.jump_counter) * (packet.length + 2) + (packet.length + 2) =
                (6 - st.jump_counter) * (packet.length + 2) := by
              have hh : 5 - st.jump_counter + 1 = 6 - st.jump_counter := by omega
              rw [← hh, Nat.succ_mul]
            set A := (6 - st1.jump_counter) * (packet.length + 2) with hA
            set B := (5 - st.jump_counter) * (packet.length + 2) with hB
            set C := (6 - st.jump_counter) * (packet.length + 2) with hC
            omega

/-- `iterMeasure` is sufficient fuel for `runIterator` on a wire-sized
packet: the run always completes (with a label list or an error). -/
theorem runIterator_isSome {packet : List Nat} (hlen : packet.length ≤ 65535) :
    ∀ (fuel : Nat) (st : LabelIterState), st.jump_counter ≤ 5 →
      iterMeasure packet st < fuel → (runIterator packet fuel st).isSome := by
  intro fuel
  induction fuel with
  | zero => intro st _ hm; exact absurd hm (Nat.not_lt_zero _)
  | succ fuel ih =>
    intro st hjc hm
    simp only [runIterator]
    cases hr : readSection packet st with
    | error e => simp
    | ok pr =>
      obtain ⟨res, st1⟩ := pr
      cases res with
      | none => simp
      | some lab =>
        have hml := readSection_measure_lt hlen hjc hr
        have hsome := ih st1 hml.2 (by omega)
        dsimp only
        cases hri : runIterator packet fuel st1 with
        | none => rw [hri] at hsome; exact absurd hsome (by simp)
        | some r =>
          cases r with
          | error e => simp
          | ok pr2 => obtain ⟨labs, stf⟩ := pr2; simp

/-- C10: for every packet of at most 65535 bytes and every starting state
of the iterator (in particular any starting offset with jump counter 0),
driving the label iterator to exhaustion terminates: it yields finitely
many labels and then either the name terminator or an error, within
`iterMeasure` steps.  (For longer buffers the 16-bit local cursor can wrap
around, which is why the bound is a precondition here.) -/
theorem c10_iterator_terminates :
    ∀ (packet : List Nat) (st : LabelIterState),
      packet.length ≤ 65535 → st.jump_counter ≤ 5 →
      (runName packet st).isSome := by
  intro packet st hlen hjc
  exact runIterator_isSome hlen _ st hjc (Nat.lt_succ_self _)

/-- C10 witness: the concrete compressed packet satisfies the length
bound and its iterator run from offset 28 completes. -/
theorem c10_witness :
    googlePointer.length ≤ 65535 ∧ (runName googlePointer ⟨28, 28, 0⟩).isSome :=
  ⟨by decide, c10_iterator_terminates googlePointer ⟨28, 28, 0⟩ (by decide) (by decide)⟩

/-- C4 counterexample: decoding a 0-byte buffer yields
`OutOfBounds{index:1, length:0}`, not `OutOfBounds{index:0, length:0}` as
the claim states, because `get16` reads the byte at `index + 1` first. -/
theorem c4_counterexample :
    tryFromDnsPacket [] = some (.error (.OutOfBounds 1 0)) ∧
      DnsPacketParseError.OutOfBounds 1 0 ≠ DnsPacketParseError.OutOfBounds 0 0 :=
  ⟨rfl, by decide⟩

/-- C4 (amended): for every buffer shorter than 12 bytes, decoding fails
with `OutOfBounds` whose `length` is the buffer's length and whose `index`
is the buffer's length — except when the length is 0, 4, 6, 8 or 10, where
the next read is a 16-bit read starting at that offset and the
implementation reads its second byte first, so `index` is the length plus
1.  In particular a 0-byte buffer yields `OutOfBounds{index:1,length:0}`. -/
theorem c4_short_header_out_of_bounds :
    ∀ (value : List Nat), value.length < 12 →
      tryFromDnsPacket value =
        some (.error (.OutOfBounds
          (if value.length = 0 ∨ value.length = 4 ∨ value.length = 6 ∨
              value.length = 8 ∨ value.length = 10
           then value.length + 1 else value.length)
          value.length)) := by
  intro v hv
  rcases v with _ | ⟨a, _ | ⟨b, _ | ⟨c, _ | ⟨d, _ | ⟨e, _ | ⟨f, _ | ⟨g, _ | ⟨h, _ |
    ⟨i, _ | ⟨j, _ | ⟨k, _ | ⟨l, rest⟩⟩⟩⟩⟩⟩⟩⟩⟩⟩⟩⟩
  all_goals first
    | (exfalso; simp only [List.length_cons] at hv; omega)
    | simp [tryFromDnsPacket, readHeader, get16, get8, Bind.bind, Except.bind]

/-- C4 witness: a concrete 3-byte buffer fails with `OutOfBounds{3,3}`
(the single-byte read at offset 3 is the first to fail). -/
theorem c4_witness :
    tryFromDnsPacket [0, 0, 0] =
      some (.error (.OutOfBounds
        (if ([0, 0, 0] : List Nat).length = 0 ∨ ([0, 0, 0] : List Nat).length = 4 ∨
            ([0, 0, 0] : List Nat).length = 6 ∨ ([0, 0, 0] : List Nat).length = 8 ∨
            ([0, 0, 0] : List Nat).length = 10
         then ([0, 0, 0] : List Nat).length + 1 else ([0, 0, 0] : List Nat).length)
        ([0, 0, 0] : List Nat).length)) :=
  c4_short_header_out_of_bounds [0, 0, 0] (by decide)

/-- A successful run of the question loop yields exactly as many questions
as it was asked for. -/
theorem decodeQuestions_ok_length {value : List Nat} :
    ∀ (n pos : Nat) {qs : List Question} {pos' : Nat},
      decodeQuestions value n pos = some (.ok (qs, pos')) → qs.length = n := by
  intro n
  induction n with
  | zero =>
    intro pos qs pos' h
    simp only [decodeQuestions, Option.some.injEq, Except.ok.injEq, Prod.mk.injEq] at h
    rw [← h.1]
    rfl
  | succ n ih =>
    intro pos qs pos' h
    simp only [decodeQuestions] at h
    split at h
    · exact absurd h (by simp)
    · exact absurd h (by simp)
    · split at h
      · exact absurd h (by simp)
      · exact absurd h (by simp)
      · rename_i q pos1 hq qs2 pos2 hd
        simp only [Option.some.injEq, Except.ok.injEq, Prod.mk.injEq] at h
        rw [← h.1, List.length_cons, ih _ hd]

/-- A successful run of the answer loop yields exactly as many record
preambles as it was asked for. -/
theorem decodeAnswers_ok_length {value : List Nat} :
    ∀ (n pos : Nat) {as2 : List RecordPreamble} {pos' : Nat},
      decodeAnswers value n pos = some (.ok (as2, pos')) → as2.length = n := by
  intro n
  induction n with
  | zero =>
    intro pos as2 pos' h
    simp only [decodeAnswers, Option.some.injEq, Except.ok.injEq, Prod.mk.injEq] at h
    rw [← h.1]
    rfl
  | succ n ih =>
    intro pos as2 pos' h
    simp only [decodeAnswers] at h
    split at h
    · exact absurd h (by simp)
    · exact absurd h (by simp)
    · split at h
      · exact absurd h (by simp)
      · exact absurd h (by simp)
      · rename_i a pos1 ha as3 pos2 hd
        simp only [Option.some.injEq, Except.ok.injEq, Prod.mk.injEq] at h
        rw [← h.1, List.length_cons, ih _ hd]

/-- C5: a successfully decoded message carries exactly `question_count`
questions and `answer_count` record preambles, and any failure of the
question loop or the answer loop is returned unchanged as the result of
the whole decode — no partial message is ever produced. -/
theorem c5_counts_match_and_fail_fast :
    (∀ (value : List Nat) (r : DnsPacket),
      tryFromDnsPacket value = some (.ok r) →
      r.questions.length = r.question_count ∧ r.answers.length = r.answer_count) ∧
    (∀ (value : List Nat) (h : HeaderFields) (e : DnsPacketParseError),
      readHeader value = .ok h →
      decodeQuestions value h.question_count 12 = some (.error e) →
      tryFromDnsPacket value = some (.error e)) ∧
    (∀ (value : List Nat) (h : HeaderFields) (e : DnsPacketParseError)
       (qs : List Question) (pos : Nat),
      readHeader value = .ok h →
      decodeQuestions value h.question_count 12 = some (.ok (qs, pos)) →
      decodeAnswers value h.answer_count pos = some (.error e) →
      tryFromDnsPacket value = some (.error e)) := by
  refine ⟨?_, ?_, ?_⟩
  · intro value r h
    unfold tryFromDnsPacket at h
    split at h
    · exact absurd h (by simp)
    · rename_i hdr hhdr
      split at h
      · exact absurd h (by simp)
      · exact absurd h (by simp)
      · rename_i qs pos1 hq
        split at h
        · exact absurd h (by simp)
        · exact absurd h (by simp)
        · rename_i as2 pos2 ha
          simp only [Option.some.injEq, Except.ok.injEq] at h
          rw [← h]
          exact ⟨decodeQuestions_ok_length _ _ hq, decodeAnswers_ok_length _ _ ha⟩
  · intro value h e hh hq
    unfold tryFromDnsPacket
    rw [hh]
    dsimp only
    rw [hq]
  · intro value h e qs pos hh hq ha
    unfold tryFromDnsPacket
    rw [hh]
    dsimp only
    rw [hq]
    dsimp only
    rw [ha]

/-- C5 witness: a concrete header announcing one question with nothing
after it makes the question loop fail, and that exact error is the result
of the whole decode. -/
theorem c5_witness :
    tryFromDnsPacket truncatedQuestion = some (.error (.OutOfBounds 12 12)) :=
  c5_counts_match_and_fail_fast.2.1 truncatedQuestion
    { packet_identifier := 0, query_response := .Query, operation_code := .Query,
      authoritative_answer := false, truncated_message := false,
      recursion_desired := false, recursion_available := false,
      response_code := .ok (), question_count := 1, answer_count := 0,
      authority_count := 0, additional_count := 0 }
    (.OutOfBounds 12 12) rfl rfl

/-- C6: the question decoder first drives the name engine from the shared
cursor; on success it reads a 16-bit type at the resulting cursor (1 maps
to `AddressRecord`, anything else to `Other`) and a 16-bit class at
cursor + 2 (1 maps to `Internet`, anything else to `Other`) and advances
the shared cursor by exactly 4; and it fails precisely when the name
decode or one of those two byte reads fails (the class read at cursor + 2
being performed first). -/
theorem c6_question_decoder :
    (∀ (value : List Nat) (position : Nat) (labels : List (List Nat))
       (st : LabelIterState) (c t : Nat),
      runName value ⟨position, position, 0⟩ = some (.ok (labels, st)) →
      get16 (st.global_position + 2) value = .ok c →
      get16 st.global_position value = .ok t →
      questionTryFrom value position = some (.ok
        ({ name := buildName labels,
           type := if t = 1 then RecordType.AddressRecord else RecordType.Other,
           «class» := if c = 1 then Class.Internet else Class.Other },
         (st.global_position + 4) % 65536))) ∧
    (∀ (value : List Nat) (position : Nat) (e : DnsPacketParseError),
      questionTryFrom value position = some (.error e) ↔
        (runName value ⟨position, position, 0⟩ = some (.error e) ∨
          ∃ labels st, runName value ⟨position, position, 0⟩ = some (.ok (labels, st)) ∧
            (get16 (st.global_position + 2) value = .error e ∨
              ∃ c, get16 (st.global_position + 2) value = .ok c ∧
                get16 st.global_position value = .error e))) := by
  constructor
  · intro value position labels st c t hrun hc ht
    unfold questionTryFrom
    rw [hrun]
    dsimp only
    rw [hc]
    dsimp only
    rw [ht]
  · intro value position e
    constructor
    · intro h
      unfold questionTryFrom at h
      split at h
      · exact absurd h (by simp)
      · rename_i e' hrun
        left
        simp only [Option.some.injEq, Except.error.injEq] at h
        rw [← h]
        exact hrun
      · rename_i labels st hrun
        split at h
        · rename_i e' hc
          right
          refine ⟨labels, st, hrun, Or.inl ?_⟩
          simp only [Option.some.injEq, Except.error.injEq] at h
          rw [← h]
          exact hc
        · rename_i c hc
          split at h
          · rename_i e' ht
            right
            refine ⟨labels, st, hrun, Or.inr ⟨c, hc, ?_⟩⟩
            simp only [Option.some.injEq, Except.error.injEq] at h
            rw [← h]
            exact ht
          · exact absurd h (by simp)
    · intro h
      rcases h with hrun | ⟨labels, st, hrun, hc | ⟨c, hc, ht⟩⟩
      · unfold questionTryFrom
        rw [hrun]
      · unfold questionTryFrom
        rw [hrun]
        dsimp only
        rw [hc]
      · unfold questionTryFrom
        rw [hrun]
        dsimp only
        rw [hc]
        dsimp only
        rw [ht]

/-- C6 witness: decoding the question of the concrete uncompressed query
yields type `AddressRecord` (numeric 1), class `Internet` (numeric 1) and
moves the shared cursor from 24 (just past the name) to 28. -/
theorem c6_witness :
    questionTryFrom googleQuery 12 = some (.ok
      ({ name := buildName [[103,111,111,103,108,101], [99,111,109]],
         type := if 1 = 1 then RecordType.AddressRecord else RecordType.Other,
         «class» := if 1 = 1 then Class.Internet else Class.Other },
       (24 + 4) % 65536)) :=
  c6_question_decoder.1 googleQuery 12 [[103,111,111,103,108,101], [99,111,109]]
    ⟨23, 24, 0⟩ 1 1 rfl rfl rfl

/-- Extraction of the flag fields of a successfully decoded header: they
are exactly the stated functions of header bytes 2 and 3. -/
theorem readHeader_ok_fields {value : List Nat} {h : HeaderFields}
    (hh : readHeader value = .ok h) :
    ∃ b2 b3, get8 2 value = .ok b2 ∧ get8 3 value = .ok b3 ∧
      h.query_response =
        (if b2 >>> 7 = 1 then QueryResponse.Response else QueryResponse.Query) ∧
      h.operation_code = opcodeOf ((b2 >>> 3) &&& 15) ∧
      h.response_code = responseCodeOf (b3 &&& 15) := by
  unfold readHeader at hh
  obtain ⟨pid, hpid, hh⟩ := bind_eq_ok hh
  obtain ⟨b2a, hb2a, hh⟩ := bind_eq_ok hh
  obtain ⟨b2b, hb2b, hh⟩ := bind_eq_ok hh
  obtain ⟨b2c, hb2c, hh⟩ := bind_eq_ok hh
  obtain ⟨b2d, hb2d, hh⟩ := bind_eq_ok hh
  obtain ⟨b2e, hb2e, hh⟩ := bind_eq_ok hh
  obtain ⟨b3a, hb3a, hh⟩ := bind_eq_ok hh
  obtain ⟨b3b, hb3b, hh⟩ := bind_eq_ok hh
  obtain ⟨qc, hqc, hh⟩ := bind_eq_ok hh
  obtain ⟨ac, hac, hh⟩ := bind_eq_ok hh
  obtain ⟨nc, hnc, hh⟩ := bind_eq_ok hh
  obtain ⟨addc, haddc, hh⟩ := bind_eq_ok hh
  refine ⟨b2a, b3a, hb2a, hb3a, ?_⟩
  have hb2ab : b2b = b2a := by rw [hb2a] at hb2b; exact (Except.ok.inj hb2b).symm
  have hb3ab : b3b = b3a := by rw [hb3a] at hb3b; exact (Except.ok.inj hb3b).symm
  have hrec := Except.ok.inj hh
  rw [← hrec]
  dsimp only
  rw [hb2ab, hb3ab]
  exact ⟨rfl, rfl, rfl⟩

/-- C7: the low 4 bits of header byte 3 select the response status by the
fixed table — 0 is `Ok` and 1 through 11 are, in ascending order,
`FormErr`, `ServFail`, `NXDomain`, `NotImp`, `Refused`, `YXDomain`,
`YXRRSet`, `NXRRSet`, `NotAuth`, `NotZone`, `DSOTYPENI`, each carried as
an error value; every value from 12 up (so in particular 12 through 15)
falls back to the `Unassigned` error value.  `responseCodeOf` is a total
function, so no numeric value makes the decode fail. -/
theorem c7_response_status_mapping :
    (responseCodeOf 0 = .ok () ∧ responseCodeOf 1 = .error .FormErr ∧
     responseCodeOf 2 = .error .ServFail ∧ responseCodeOf 3 = .error .NXDomain ∧
     responseCodeOf 4 = .error .NotImp ∧ responseCodeOf 5 = .error .Refused ∧
     responseCodeOf 6 = .error .YXDomain ∧ responseCodeOf 7 = .error .YXRRSet ∧
     responseCodeOf 8 = .error .NXRRSet ∧ responseCodeOf 9 = .error .NotAuth ∧
     responseCodeOf 10 = .error .NotZone ∧ responseCodeOf 11 = .error .DSOTYPENI) ∧
    (∀ n : Nat, responseCodeOf (n + 12) = .error .Unassigned) ∧
    (∀ (value : List Nat) (h : HeaderFields) (b3 : Nat),
      readHeader value = .ok h → get8 3 value = .ok b3 →
      h.response_code = responseCodeOf (b3 &&& 15)) := by
  refine ⟨by decide, fun n => rfl, ?_⟩
  intro value h b3 hh hb3
  obtain ⟨b2', b3', -, hb3', -, -, hrc⟩ := readHeader_ok_fields hh
  rw [hb3] at hb3'
  rw [hrc, Except.ok.inj hb3']

/-- C7 witness: a concrete header whose byte 3 is 13 decodes to the
`Unassigned` fallback response status. -/
theorem c7_witness :
    HeaderFields.response_code
        ⟨0, .Query, .Query, false, false, false, false, .error .Unassigned, 0, 0, 0, 0⟩ =
      responseCodeOf (13 &&& 15) :=
  c7_response_status_mapping.2.2 [0, 0, 0, 13, 0, 0, 0, 0, 0, 0, 0, 0]
    ⟨0, .Query, .Query, false, false, false, false, .error .Unassigned, 0, 0, 0, 0⟩
    13 rfl rfl

/-- C8: for every header byte 2 (a value below 256), the decoded role is
`Response` iff bit 7 is set (iff the byte is at least 128), and bits 3
through 6 select the operation code by the fixed table 0 to `Query`, 1 to
`IQuery`, 2 to `Status`, 4 to `Notify`, 5 to `Update`, 6 to
`DNSStatefulOperations`, with 3 and 7 through 15 falling back to
`Unassigned`; `opcodeOf` is total, so no numeric value makes the decode
fail. -/
theorem c8_byte2_role_and_opcode :
    (opcodeOf 0 = .Query ∧ opcodeOf 1 = .IQuery ∧ opcodeOf 2 = .Status ∧
     opcodeOf 4 = .Notify ∧ opcodeOf 5 = .Update ∧
     opcodeOf 6 = .DNSStatefulOperations) ∧
    (∀ n : Nat, n < 16 → n = 3 ∨ 7 ≤ n → opcodeOf n = .Unassigned) ∧
    (∀ (value : List Nat) (h : HeaderFields) (b2 : Nat),
      readHeader value = .ok h → get8 2 value = .ok b2 → b2 < 256 →
      ((h.query_response = QueryResponse.Response ↔ 128 ≤ b2) ∧
        h.operation_code = opcodeOf ((b2 >>> 3) &&& 15))) := by
  refine ⟨by decide, by decide, ?_⟩
  intro value h b2 hh hb2 hlt
  obtain ⟨b2', b3', hb2', -, hqr, hoc, -⟩ := readHeader_ok_fields hh
  rw [hb2] at hb2'
  have hb : b2' = b2 := (Except.ok.inj hb2').symm
  rw [hb] at hqr hoc
  refine ⟨?_, hoc⟩
  rw [hqr]
  have hshift : b2 >>> 7 = b2 / 128 := by
    rw [Nat.shiftRight_eq_div_pow]
  by_cases hbit : b2 >>> 7 = 1
  · rw [if_pos hbit]
    rw [hshift] at hbit
    simp only [true_iff]
    omega
  · rw [if_neg hbit]
    rw [hshift] at hbit
    constructor
    · intro hq; exact absurd hq (by simp)
    · intro hge; exact absurd (show b2 / 128 = 1 by omega) hbit

/-- C8 witness: a concrete header byte 2 of 153 (bit 7 set, opcode bits
`0011`) decodes to role `Response` and the `Unassigned` opcode. -/
theorem c8_witness :
    (HeaderFields.query_response
        ⟨0, .Response, .Unassigned, false, false, true, false, .ok (), 0, 0, 0, 0⟩ =
          QueryResponse.Response ↔ 128 ≤ 153) ∧
      HeaderFields.operation_code
        ⟨0, .Response, .Unassigned, false, false, true, false, .ok (), 0, 0, 0, 0⟩ =
        opcodeOf ((153 >>> 3) &&& 15) :=
  c8_byte2_role_and_opcode.2.2 [0, 0, 153, 0, 0, 0, 0, 0, 0, 0, 0, 0]
    ⟨0, .Response, .Unassigned, false, false, true, false, .ok (), 0, 0, 0, 0⟩
    153 rfl rfl (by omega)

/-- A label whose bytes are all alphanumeric passes the byte check. -/
theorem checkLabelBytes_ok_of_all {label : List Nat} :
    ∀ {l : List Nat}, (∀ b ∈ l, isAlphanumericByte b = true) →
      ∃ bs, checkLabelBytes label l = .ok bs := by
  intro l
  induction l with
  | nil => intro _; exact ⟨[], rfl⟩
  | cons b rest ih =>
    intro hall
    obtain ⟨bs, hbs⟩ := ih (fun x hx => hall x (List.mem_cons_of_mem b hx))
    refine ⟨b :: bs, ?_⟩
    unfold checkLabelBytes
    rw [if_pos (hall b (List.mem_cons_self b rest)), hbs]

/-- A valid label encodes successfully. -/
theorem encodeLabel_ok_of_labelOk {l : List Nat} (h : labelOk l) :
    ∃ bs, encodeLabel l = .ok bs := by
  obtain ⟨h0, h63, hall⟩ := h
  obtain ⟨bs, hbs⟩ := @checkLabelBytes_ok_of_all l l hall
  refine ⟨l.length :: bs, ?_⟩
  unfold encodeLabel
  rw [if_neg (by omega), hbs]

/-- A label containing a non-alphanumeric byte fails the byte check with
`LabelInvalidCharacter` citing the label being scanned. -/
theorem checkLabelBytes_error_of_bad {label : List Nat} :
    ∀ {l : List Nat}, (∃ b ∈ l, isAlphanumericByte b = false) →
      checkLabelBytes label l = .error (.LabelInvalidCharacter label) := by
  intro l
  induction l with
  | nil => intro h; exact absurd h (by simp)
  | cons b rest ih =>
    intro hbad
    unfold checkLabelBytes
    by_cases hb : isAlphanumericByte b = true
    · rw [if_pos hb]
      have hrest : ∃ x ∈ rest, isAlphanumericByte x = false := by
        rcases hbad with ⟨x, hx, hxf⟩
        rcases List.mem_cons.mp hx with hxb | hxr
        · rw [hxb] at hxf; exact absurd hb (by rw [hxf]; simp)
        · exact ⟨x, hxr, hxf⟩
      rw [ih hrest]
    · rw [if_neg hb]

/-- The label loop fails with the error of the first invalid label, all
earlier labels being valid. -/
theorem encodeLabels_error_first {lab : List Nat} {rest : List (List Nat)}
    {e : MainError} (herr : encodeLabel lab = .error e) :
    ∀ (pre : List (List Nat)), (∀ l ∈ pre, labelOk l) →
      encodeLabels (pre ++ lab :: rest) = .error e := by
  intro pre
  induction pre with
  | nil =>
    intro _
    rw [List.nil_append]
    unfold encodeLabels
    rw [herr]
  | cons p pre' ih =>
    intro hpre
    obtain ⟨bs, hbs⟩ := encodeLabel_ok_of_labelOk (hpre p (List.mem_cons_self p pre'))
    rw [List.cons_append]
    unfold encodeLabels
    rw [hbs, ih (fun l hl => hpre l (List.mem_cons_of_mem p hl))]

/-- C9: splitting the host name on dots, the first invalid label aborts
the outbound builder — with a `LabelSize` error citing that label when its
length is 0 or above 63, and with a `LabelInvalidCharacter` error citing
that label when its length is fine but it contains a byte that is not an
ASCII letter or digit.  Concretely, `"a..b"` fails with `LabelSize` citing
the empty label and `"ex!mple.com"` fails with `LabelInvalidCharacter`
citing `"ex!mple"`. -/
theorem c9_outbound_label_validation :
    (∀ (host : List Nat) (pre : List (List Nat)) (lab : List Nat)
       (rest : List (List Nat)),
      splitOnDot host = pre ++ lab :: rest →
      (∀ l ∈ pre, labelOk l) →
      ((lab.length = 0 ∨ 63 < lab.length →
          encodeQuestionName host = .error (.LabelSize lab)) ∧
        (lab.length ≠ 0 → lab.length ≤ 63 →
          (∃ b ∈ lab, isAlphanumericByte b = false) →
          encodeQuestionName host = .error (.LabelInvalidCharacter lab)))) ∧
    encodeQuestionName (asciiBytes "a..b") = .error (.LabelSize []) ∧
    encodeQuestionName (asciiBytes "ex!mple.com") =
      .error (.LabelInvalidCharacter (asciiBytes "ex!mple")) := by
  refine ⟨?_, by decide, by decide⟩
  intro host pre lab rest hsplit hpre
  constructor
  · intro hsz
    have herr : encodeLabel lab = .error (.LabelSize lab) := by
      unfold encodeLabel
      rw [if_pos hsz]
    unfold encodeQuestionName
    rw [hsplit, encodeLabels_error_first herr pre hpre]
  · intro h0 h63 hbad
    have herr : encodeLabel lab = .error (.LabelInvalidCharacter lab) := by
      unfold encodeLabel
      rw [if_neg (by omega), checkLabelBytes_error_of_bad hbad]
    unfold encodeQuestionName
    rw [hsplit, encodeLabels_error_first herr pre hpre]

/-- C9 witness: in `"a..b"` the empty label (preceded by the valid label
`"a"`) triggers the `LabelSize` error citing it. -/
theorem c9_witness :
    encodeQuestionName (asciiBytes "a..b") = .error (.LabelSize []) :=
  (c9_outbound_label_validation.1 (asciiBytes "a..b") [[97]] [] [[98]]
    rfl (by decide)).1 (Or.inl rfl)

end Dns
